import Mathlib

/-!
Verification of the `deleteEvent` cascading-deletion function.

Shallow embedding of `src/src/main.js` (`deleteEvent`): an Appwrite cloud
function that deletes a parent event document together with all of its
dependent photo documents and their storage files.

The embedding models the final variant of the function (the one including
the `401` authentication check on `context.userId`): request validation,
authentication, parent lookup, ownership authorization, paginated photo
discovery, chunked best-effort photo deletion, and final parent deletion.
External stores are modelled as pure functions supplied in an `Env`;
every store call the function issues is recorded in an explicit trace.
-/

namespace DeleteEvent

/-- A photo document (`DependentResource`): Appwrite `$id` plus the
optional `file_id` reference to a storage file. -/
structure Photo where
  id : String
  file_id : Option String
deriving Repr, DecidableEq

/-- An event document (`ParentResource`): only its `user_id` field is
read by the function.  `none` models an absent / null field. -/
structure EventDoc where
  user_id : Option String
deriving Repr, DecidableEq

/-- One call issued to the record store or the blob store. -/
inductive StoreCall where
  /-- Call `databases.getDocument(databaseId, eventCollectionId, eventId)`. -/
  | getEvent (eventId : String)
  /-- Call `databases.listDocuments` on the photo collection with an
  `event_id` filter and the given limit and offset. -/
  | listPhotos (limit offset : Nat)
  /-- Call `storage.deleteFile(bucketId, fileId)`. -/
  | deleteFile (fileId : String)
  /-- Call `databases.deleteDocument(databaseId, photoCollectionId, photoId)`. -/
  | deletePhotoDoc (photoId : String)
  /-- Call `databases.deleteDocument(databaseId, eventCollectionId, eventId)`. -/
  | deleteEventDoc (eventId : String)
deriving Repr, DecidableEq

/-- Whether a store call mutates store-side state (a delete on either store). -/
def StoreCall.isDelete : StoreCall → Bool
  | .deleteFile _ => true
  | .deletePhotoDoc _ => true
  | .deleteEventDoc _ => true
  | _ => false

/-- The external stores, as pure functions.  `listPhotos eventId limit offset`
is the page the record store returns for
`listDocuments(... Query.equal('event_id', eventId), Query.limit(limit), Query.offset(offset))`;
the `...Fails` fields say which individual delete calls throw. -/
structure Env where
  getEvent : String → Option EventDoc
  listPhotos : String → Nat → Nat → List Photo
  deleteFileFails : String → Bool
  deletePhotoDocFails : String → Bool
  deleteEventDocFails : String → Bool

/-- The request: `payload.eventId` from the parsed body and
`context.userId` from the platform.  `none` models an absent value. -/
structure Request where
  eventId : Option String
  userId : Option String

/-- The JSON response: `statusCode` and, on success, the `deletedPhotos`
count (`none` on every error response). -/
structure Response where
  statusCode : Nat
  deletedPhotos : Option Nat
deriving Repr, DecidableEq

/-- JavaScript falsiness of an optional string: `!x` is true exactly for
an absent value or the empty string. -/
def jsFalsy : Option String → Bool
  | none => true
  | some s => s = ""

/-- JavaScript `String.prototype.trim()`: remove leading and trailing
whitespace characters.  (Defined directly on the character list so it
is kernel-computable.) -/
def jsTrim (s : String) : String :=
  ⟨((s.data.dropWhile Char.isWhitespace).reverse.dropWhile Char.isWhitespace).reverse⟩

/-- The expression `String(eventDoc.user_id || '').trim()`: an absent or empty
`user_id` becomes `""`, then surrounding whitespace is trimmed. -/
def ownerId (doc : EventDoc) : String :=
  jsTrim (doc.user_id.getD "")

/-- The ownership check of lines 188–189 (`AuthorizationGuard`):
`String(eventDoc.user_id || '').trim() === currentUserId`.  Only the
recorded owner is trimmed; the caller identity is compared as-is. -/
def authorize (doc : EventDoc) (callerId : String) : Bool :=
  ownerId doc = callerId

/-- Fixed discovery page size (`const limit = 100`). -/
def pageLimit : Nat := 100

/-- Fixed deletion group size (`const chunkSize = 20`). -/
def chunkSize : Nat := 20

/-- The `while (true)` pagination loop (`DependentDiscovery`), with
explicit fuel since an arbitrary store need not let it terminate.
`list limit offset` is one `listDocuments` call.  Returns the
accumulated photos and the fetch trace of `(offset, pageLength)` pairs;
`none` means the fuel ran out (the loop would still be running). -/
def discoverGo (list : Nat → Nat → List Photo) (limit : Nat) :
    Nat → Nat → List Photo → List (Nat × Nat) → Option (List Photo × List (Nat × Nat))
  | 0, _, _, _ => none
  | fuel + 1, offset, acc, tr =>
    let page := list limit offset
    let tr' := tr ++ [(offset, page.length)]
    if page.length = 0 then some (acc, tr')
    else
      let acc' := acc ++ page
      if page.length < limit then some (acc', tr')
      else discoverGo list limit fuel (offset + page.length) acc' tr'

/-- Run the pagination loop (`listAllDependents`) from offset 0 with an
empty accumulator. -/
def listAllDependents (list : Nat → Nat → List Photo) (fuel : Nat) :
    Option (List Photo × List (Nat × Nat)) :=
  discoverGo list pageLimit fuel 0 [] []

/-- Fuel-indexed chunking; the fuel `List.length l` is always enough
when `0 < c`. -/
def chunksGo (c : Nat) : Nat → List Photo → List (List Photo)
  | 0, _ => []
  | _, [] => []
  | fuel + 1, l@(_ :: _) => l.take c :: chunksGo c fuel (l.drop c)

/-- The chunking loop of lines 222–223 (`BatchDeleter` grouping):
`for (let i = 0; i < allPhotos.length; i += chunkSize) chunk = allPhotos.slice(i, i + chunkSize)`. -/
def chunksOf (c : Nat) (l : List Photo) : List (List Photo) :=
  chunksGo c l.length l

/-- Outcome of the blob sub-step for one photo. -/
inductive BlobOutcome where
  | deleted
  | skipped
  | failed
deriving Repr, DecidableEq

/-- Outcome of the record sub-step for one photo. -/
inductive RecordOutcome where
  | deleted
  | failed
deriving Repr, DecidableEq

/-- Per-photo processing (lines 225–240): if `photo.file_id` is truthy,
attempt the storage delete, catching any failure; then attempt the
document delete, catching any failure.  Both catches only log, so each
sub-step runs regardless of the other's outcome.  Returns the two
outcomes and the calls issued. -/
def processPhoto (env : Env) (p : Photo) :
    (BlobOutcome × RecordOutcome) × List StoreCall :=
  let blob : BlobOutcome × List StoreCall :=
    if jsFalsy p.file_id then (BlobOutcome.skipped, [])
    else
      let fid := p.file_id.getD ""
      if env.deleteFileFails fid then (BlobOutcome.failed, [StoreCall.deleteFile fid])
      else (BlobOutcome.deleted, [StoreCall.deleteFile fid])
  let record : RecordOutcome × List StoreCall :=
    if env.deletePhotoDocFails p.id then (RecordOutcome.failed, [StoreCall.deletePhotoDoc p.id])
    else (RecordOutcome.deleted, [StoreCall.deletePhotoDoc p.id])
  ((blob.1, record.1), blob.2 ++ record.2)

/-- One group: every member is processed (issued concurrently via
`Promise.allSettled`, which never rejects); issuance order follows the
group's order. -/
def runChunk (env : Env) (chunk : List Photo) :
    List (BlobOutcome × RecordOutcome) × List StoreCall :=
  (chunk.map fun p => (processPhoto env p).1,
   chunk.flatMap fun p => (processPhoto env p).2)

/-- Run the whole deletion phase (`BatchDeleter.deleteAll`, lines 221–242): groups are processed
sequentially; per-item outcomes never propagate. -/
def batchDelete (env : Env) (photos : List Photo) :
    List (BlobOutcome × RecordOutcome) × List StoreCall :=
  let chunks := chunksOf chunkSize photos
  (chunks.flatMap fun c => (runChunk env c).1,
   chunks.flatMap fun c => (runChunk env c).2)

/-- The whole `deleteEvent` function (final variant, lines 142–259).
Returns the response together with the trace of store calls, or `none`
if the discovery loop exceeds the fuel. -/
def deleteEvent (env : Env) (fuel : Nat) (req : Request) :
    Option (Response × List StoreCall) :=
  if jsFalsy req.eventId then
    some (⟨400, none⟩, [])
  else if jsFalsy req.userId then
    some (⟨401, none⟩, [])
  else
    let eventId := req.eventId.getD ""
    let currentUserId := req.userId.getD ""
    match env.getEvent eventId with
    | none => some (⟨404, none⟩, [StoreCall.getEvent eventId])
    | some eventDoc =>
      if ! authorize eventDoc currentUserId then
        some (⟨403, none⟩, [StoreCall.getEvent eventId])
      else
        match listAllDependents (env.listPhotos eventId) fuel with
        | none => none
        | some (allPhotos, pages) =>
          let listCalls := pages.map fun pg => StoreCall.listPhotos pageLimit pg.1
          let delCalls := (batchDelete env allPhotos).2
          let resp : Response :=
            if env.deleteEventDocFails eventId then ⟨500, none⟩
            else ⟨200, some allPhotos.length⟩
          some (resp,
            [StoreCall.getEvent eventId] ++ listCalls ++ delCalls
              ++ [StoreCall.deleteEventDoc eventId])

/-- A deterministic paginated store backed by a fixed list `db`: the page
at `offset` with size `limit` is `(db.drop offset).take limit`.  This is
the canonical model of a record store whose `list` operation is
deterministic (stable order, no concurrent mutation). -/
def fetchPage (db : List Photo) (limit offset : Nat) : List Photo :=
  (db.drop offset).take limit

/-- Build an `Env` whose photo listing is the deterministic store
`fetchPage (photosOf eventId)`. -/
def mkEnv (events : String → Option EventDoc) (photosOf : String → List Photo)
    (bf df ef : String → Bool) : Env :=
  { getEvent := events
    listPhotos := fun eid => fetchPage (photosOf eid)
    deleteFileFails := bf
    deletePhotoDocFails := df
    deleteEventDocFails := ef }

/-- The calls the per-photo processing always issues, whatever the
failure pattern: the blob delete exactly when `file_id` is truthy,
then the record delete. -/
def attemptCalls (p : Photo) : List StoreCall :=
  (if jsFalsy p.file_id then [] else [StoreCall.deleteFile (p.file_id.getD "")])
    ++ [StoreCall.deletePhotoDoc p.id]

/-- An environment with no events, no photos, and no store failures. -/
def trivEnv : Env :=
  mkEnv (fun _ => none) (fun _ => []) (fun _ => false) (fun _ => false) (fun _ => false)

/-- The 205 dependents of the end-to-end scenario. -/
def photos205 : List Photo :=
  List.replicate 205 ⟨"p", none⟩

/-- The end-to-end scenario environment: parent `"evt1"` owned by
`"u1"` with 205 dependents, and no store failures. -/
def env205 : Env :=
  mkEnv (fun eid => if eid = "evt1" then some ⟨some "u1"⟩ else none)
    (fun eid => if eid = "evt1" then photos205 else [])
    (fun _ => false) (fun _ => false) (fun _ => false)

/-- The end-to-end scenario request: event `"evt1"`, caller `"u1"`. -/
def req205 : Request :=
  ⟨some "evt1", some "u1"⟩

/-- An environment whose single event `"evt1"` is owned by `"u1"` (no
whitespace in the stored owner) and has no dependents. -/
def env3 : Env :=
  mkEnv (fun eid => if eid = "evt1" then some ⟨some "u1"⟩ else none)
    (fun _ => []) (fun _ => false) (fun _ => false) (fun _ => false)

/-! ## Helper lemmas -/

theorem discoverGo_fetchPage (db : List Photo) (P : Nat) (hP : 0 < P) :
    ∀ (fuel offset : Nat) (acc : List Photo) (tr : List (Nat × Nat)),
      (db.length - offset) / P < fuel →
      discoverGo (fetchPage db) P fuel offset acc tr =
        some (acc ++ db.drop offset,
          tr ++ (List.range ((db.length - offset) / P + 1)).map
            (fun k => (offset + P * k, min P (db.length - (offset + P * k))))) := by
  intro fuel
  induction fuel with
  | zero => intro offset acc tr h; exact absurd h (Nat.not_lt_zero _)
  | succ fuel ih =>
    intro offset acc tr h
    have hlen : (fetchPage db P offset).length = min P (db.length - offset) := by
      simp [fetchPage]
    simp only [discoverGo]
    by_cases h0 : db.length ≤ offset
    · have hm : db.length - offset = 0 := Nat.sub_eq_zero_of_le h0
      have hz : (fetchPage db P offset).length = 0 := by rw [hlen, hm]; simp
      rw [hz]
      simp [hm, List.drop_eq_nil_of_le h0, List.range_succ]
    · push_neg at h0
      have hmpos : 0 < db.length - offset := by omega
      by_cases hshort : db.length - offset < P
      · have hlen' : (fetchPage db P offset).length = db.length - offset := by
          rw [hlen]; omega
        have hfull : fetchPage db P offset = db.drop offset := by
          apply List.take_of_length_le; simp; omega
        have hdiv : (db.length - offset) / P = 0 := Nat.div_eq_of_lt hshort
        have hne : ¬ (db.length - offset = 0) := by omega
        rw [hlen', hfull, if_neg hne, if_pos hshort, hdiv]
        simp [min_eq_right (Nat.le_of_lt hshort), List.range_succ]
      · push_neg at hshort
        have hlenP : (fetchPage db P offset).length = P := by rw [hlen]; omega
        have hPne : ¬ (P = 0) := by omega
        have hPnlt : ¬ (P < P) := by omega
        rw [hlenP, if_neg hPne, if_neg hPnlt]
        have hq2 : (db.length - offset) / P = (db.length - (offset + P)) / P + 1 := by
          have h1 : db.length - offset = (db.length - (offset + P)) + P := by omega
          rw [h1, Nat.add_div_right _ hP]
        rw [ih (offset + P) (acc ++ fetchPage db P offset) (tr ++ [(offset, P)]) (by omega)]
        congr 1
        rw [Prod.mk.injEq]
        constructor
        · have hdd : (db.drop offset).drop P = db.drop (offset + P) := by
            rw [List.drop_drop, Nat.add_comm]
          rw [List.append_assoc, ← hdd, fetchPage, List.take_append_drop]
        · rw [List.append_assoc, hq2]
          congr 1
          conv_rhs => rw [List.range_succ_eq_map]
          simp only [List.map_cons, List.map_map, List.singleton_append]
          congr 1
          · simp only [Nat.mul_zero, Nat.add_zero]
            rw [min_eq_left hshort]
          · apply List.map_congr_left
            intro k _
            simp only [Function.comp_apply, Nat.succ_eq_add_one]
            have harg : offset + P * (k + 1) = offset + P + P * k := by
              rw [Nat.mul_succ]; omega
            rw [harg]



theorem chunksGo_fuel (c : Nat) (hc : 0 < c) :
    ∀ (fuel fuel' : Nat) (l : List Photo), l.length ≤ fuel → l.length ≤ fuel' →
      chunksGo c fuel l = chunksGo c fuel' l := by
  intro fuel
  induction fuel with
  | zero =>
    intro fuel' l h h'
    have hnil : l = [] := List.eq_nil_of_length_eq_zero (Nat.le_zero.mp h)
    subst hnil
    cases fuel' <;> simp [chunksGo]
  | succ fuel ih =>
    intro fuel' l h h'
    cases l with
    | nil => cases fuel' <;> simp [chunksGo]
    | cons x xs =>
      cases fuel' with
      | zero => simp at h'
      | succ fuel' =>
        simp only [chunksGo]
        congr 1
        apply ih
        · simp only [List.length_drop, List.length_cons]
          simp only [List.length_cons] at h
          omega
        · simp only [List.length_drop, List.length_cons]
          simp only [List.length_cons] at h'
          omega

theorem chunksOf_nil (c : Nat) : chunksOf c [] = [] := rfl

theorem chunksOf_cons (c : Nat) (hc : 0 < c) (l : List Photo) (hl : l ≠ []) :
    chunksOf c l = l.take c :: chunksOf c (l.drop c) := by
  cases l with
  | nil => exact absurd rfl hl
  | cons x xs =>
    show chunksGo c (xs.length + 1) (x :: xs) = _
    simp only [chunksGo]
    congr 1
    apply chunksGo_fuel c hc
    · simp only [List.length_drop, List.length_cons]; omega
    · exact le_rfl

theorem chunksOf_length (c : Nat) (hc : 0 < c) :
    ∀ (n : Nat) (l : List Photo), l.length ≤ n →
      (chunksOf c l).length = (l.length + c - 1) / c := by
  intro n
  induction n with
  | zero =>
    intro l h
    have hnil : l = [] := List.eq_nil_of_length_eq_zero (Nat.le_zero.mp h)
    subst hnil
    simp only [chunksOf_nil, List.length_nil, List.length, Nat.zero_add]
    exact (Nat.div_eq_of_lt (by omega)).symm
  | succ n ih =>
    intro l h
    by_cases hl : l = []
    · subst hl
      simp only [chunksOf_nil, List.length_nil, List.length, Nat.zero_add]
      exact (Nat.div_eq_of_lt (by omega)).symm
    · have hlpos : 0 < l.length := List.length_pos.mpr hl
      rw [chunksOf_cons c hc l hl]
      simp only [List.length_cons]
      rw [ih (l.drop c) (by simp only [List.length_drop]; omega)]
      simp only [List.length_drop]
      have h2 : l.length + c - 1 = (l.length - 1) + c := by omega
      rw [h2, Nat.add_div_right _ hc]
      congr 1
      by_cases hcase : l.length ≤ c
      · have hz : l.length - c = 0 := by omega
        rw [hz, Nat.div_eq_of_lt (by omega), Nat.div_eq_of_lt (by omega)]
      · have heq : l.length - c + c - 1 = l.length - 1 := by omega
        rw [heq]

theorem chunksOf_getElem (c : Nat) (hc : 0 < c) :
    ∀ (n : Nat) (l : List Photo), l.length ≤ n →
      ∀ k : Nat, k < (chunksOf c l).length →
        (chunksOf c l)[k]? = some ((l.drop (k * c)).take c) := by
  intro n
  induction n with
  | zero =>
    intro l h k hk
    have hnil : l = [] := List.eq_nil_of_length_eq_zero (Nat.le_zero.mp h)
    subst hnil
    simp [chunksOf_nil] at hk
  | succ n ih =>
    intro l h k hk
    by_cases hl : l = []
    · subst hl; simp [chunksOf_nil] at hk
    · rw [chunksOf_cons c hc l hl] at hk ⊢
      cases k with
      | zero => simp
      | succ k =>
        simp only [List.getElem?_cons_succ]
        rw [ih (l.drop c) (by simp only [List.length_drop]; omega) k
          (by simpa using hk)]
        rw [List.drop_drop]
        have harg : c + k * c = (k + 1) * c := by rw [Nat.succ_mul]; omega
        rw [harg]

theorem chunksOf_flatten (c : Nat) (hc : 0 < c) :
    ∀ (n : Nat) (l : List Photo), l.length ≤ n → (chunksOf c l).flatten = l := by
  intro n
  induction n with
  | zero =>
    intro l h
    have hnil : l = [] := List.eq_nil_of_length_eq_zero (Nat.le_zero.mp h)
    subst hnil
    simp [chunksOf_nil]
  | succ n ih =>
    intro l h
    by_cases hl : l = []
    · subst hl; simp [chunksOf_nil]
    · rw [chunksOf_cons c hc l hl]
      simp only [List.flatten_cons]
      rw [ih (l.drop c) (by simp only [List.length_drop]; omega)]
      exact List.take_append_drop c l

theorem processPhoto_calls (env : Env) (p : Photo) :
    (processPhoto env p).2 = attemptCalls p := by
  simp only [processPhoto, attemptCalls]
  by_cases hb : jsFalsy p.file_id <;>
    by_cases hf : env.deleteFileFails (p.file_id.getD "") <;>
      by_cases hd : env.deletePhotoDocFails p.id <;> simp [hb, hf, hd]

theorem flatten_flatMap (g : Photo → List StoreCall) :
    ∀ cs : List (List Photo),
      cs.flatten.flatMap g = cs.flatMap fun c => c.flatMap g := by
  intro cs
  induction cs with
  | nil => rfl
  | cons c cs ih => simp [ih]

theorem batchDelete_calls (env : Env) (photos : List Photo) :
    (batchDelete env photos).2 = photos.flatMap attemptCalls := by
  simp only [batchDelete, runChunk, processPhoto_calls]
  rw [← flatten_flatMap attemptCalls (chunksOf chunkSize photos),
    chunksOf_flatten chunkSize (by decide) photos.length photos le_rfl]


/-! ## Claim theorems (first group) -/

theorem deleteEvent_authorized (env : Env) (fuel : Nat) (req : Request) (doc : EventDoc)
    (photos : List Photo) (pages : List (Nat × Nat))
    (he : jsFalsy req.eventId = false) (hu : jsFalsy req.userId = false)
    (hdoc : env.getEvent (req.eventId.getD "") = some doc)
    (hauth : authorize doc (req.userId.getD "") = true)
    (hdisc : listAllDependents (env.listPhotos (req.eventId.getD "")) fuel =
      some (photos, pages)) :
    deleteEvent env fuel req =
      some ((if env.deleteEventDocFails (req.eventId.getD "") then ⟨500, none⟩
             else ⟨200, some photos.length⟩ : Response),
        [StoreCall.getEvent (req.eventId.getD "")]
          ++ pages.map (fun pg => StoreCall.listPhotos pageLimit pg.1)
          ++ (batchDelete env photos).2
          ++ [StoreCall.deleteEventDoc (req.eventId.getD "")]) := by
  simp only [deleteEvent, he, hu, hdoc, hauth]
  rw [hdisc]
  simp

theorem getLast_append_singleton (l : List StoreCall) (a : StoreCall) :
    (l ++ [a]).getLast? = some a := by
  rw [List.getLast?_concat]

/-- C1: authorization runs strictly before any deletion.  For every
request whose parent exists but whose recorded owner (trimmed) differs
from the caller identity, `deleteEvent` returns a 403 Forbidden response,
and its store-call trace is just the parent lookup — in particular it
contains zero delete calls to the record store and zero to the blob
store. -/
theorem authorization_precedes_deletion (env : Env) (fuel : Nat) (req : Request)
    (doc : EventDoc)
    (he : jsFalsy req.eventId = false) (hu : jsFalsy req.userId = false)
    (hdoc : env.getEvent (req.eventId.getD "") = some doc)
    (hmm : ownerId doc ≠ req.userId.getD "") :
    deleteEvent env fuel req =
      some (⟨403, none⟩, [StoreCall.getEvent (req.eventId.getD "")]) ∧
    ∀ r tr, deleteEvent env fuel req = some (r, tr) →
      tr.filter (fun c => c.isDelete) = [] := by
  have hauth : authorize doc (req.userId.getD "") = false := by
    simp [authorize, hmm]
  have hres : deleteEvent env fuel req =
      some (⟨403, none⟩, [StoreCall.getEvent (req.eventId.getD "")]) := by
    simp only [deleteEvent, he, hu, hdoc, hauth]
    simp
  refine ⟨hres, ?_⟩
  intro r tr htr
  rw [hres] at htr
  simp only [Option.some.injEq, Prod.mk.injEq] at htr
  obtain ⟨-, htr⟩ := htr
  subst htr
  rfl

/-- Witness for C1: parent `"evt1"` owned by `"u1"`, caller `"u2"`. -/
theorem authorization_precedes_deletion_witness :
    deleteEvent env3 0 ⟨some "evt1", some "u2"⟩ =
      some (⟨403, none⟩, [StoreCall.getEvent "evt1"]) ∧
    ∀ r tr, deleteEvent env3 0 ⟨some "evt1", some "u2"⟩ = some (r, tr) →
      tr.filter (fun c => c.isDelete) = [] :=
  authorization_precedes_deletion env3 0 ⟨some "evt1", some "u2"⟩ ⟨some "u1"⟩
    (by decide) (by decide) (by decide) (by decide)

/-- C9: a request whose parent identifier is absent or empty terminates
with a 400 validation failure and an empty store-call trace: no lookup,
list, or delete call is issued to either store. -/
theorem validation_before_store_access (env : Env) (fuel : Nat) (req : Request)
    (h : jsFalsy req.eventId = true) :
    deleteEvent env fuel req = some (⟨400, none⟩, []) := by
  simp [deleteEvent, h]

/-- Witness for C9: an empty `eventId`. -/
theorem validation_before_store_access_witness :
    deleteEvent trivEnv 0 ⟨some "", some "u1"⟩ = some (⟨400, none⟩, []) :=
  validation_before_store_access trivEnv 0 ⟨some "", some "u1"⟩ (by decide)

/-- C4 (amended): for every request that passes input validation (its
`eventId` is present and non-empty) and whose caller identity is empty
or absent, `deleteEvent` fails with 401 and an empty store-call trace —
so no parent is fetched and no ownership comparison happens; the 401
response is distinct from the 403 ownership-mismatch response. -/
theorem unauthenticated_401 (env : Env) (fuel : Nat) (req : Request)
    (he : jsFalsy req.eventId = false) (hu : jsFalsy req.userId = true) :
    deleteEvent env fuel req = some (⟨401, none⟩, []) := by
  simp [deleteEvent, he, hu]

/-- Witness for C4 (amended): valid `eventId`, absent caller. -/
theorem unauthenticated_401_witness :
    deleteEvent trivEnv 0 ⟨some "e1", none⟩ = some (⟨401, none⟩, []) :=
  unauthenticated_401 trivEnv 0 ⟨some "e1", none⟩ (by decide) (by decide)

/-- C4 counterexample: a request with caller identity absent but
`eventId` also absent is rejected with 400 (validation), not 401 — so
"for every request whose caller identity is empty or absent, the
operation fails with a 401" is false as literally stated. -/
theorem unauthenticated_401_counterexample :
    ((deleteEvent trivEnv 0 ⟨none, none⟩).map fun r => r.1.statusCode) = some 400 ∧
    ¬ ((deleteEvent trivEnv 0 ⟨none, none⟩).map fun r => r.1.statusCode) = some 401 := by
  decide

/-- C3 counterexample: `"u1"` and `"u1 "` are equal after trimming, but
the guard rejects them (403): the caller identity is compared untrimmed,
so the claim that both identities are compared as trimmed strings is
false. -/
theorem guard_trims_owner_only_counterexample :
    jsTrim "u1" = jsTrim "u1 " ∧
    authorize ⟨some "u1"⟩ "u1 " = false ∧
    ((deleteEvent env3 1 ⟨some "evt1", some "u1 "⟩).map fun r => r.1.statusCode) =
      some 403 := by
  decide

/-- C3 (amended): the guard trims only the recorded owner identity and
compares it with the caller identity verbatim, with exact string
equality and no hierarchy or role logic: a run whose parent exists
returns 403 exactly when the trimmed owner differs from the raw caller
identity. -/
theorem guard_trims_owner_only (env : Env) (fuel : Nat) (req : Request)
    (doc : EventDoc) (r : Response) (tr : List StoreCall)
    (he : jsFalsy req.eventId = false) (hu : jsFalsy req.userId = false)
    (hdoc : env.getEvent (req.eventId.getD "") = some doc)
    (hrun : deleteEvent env fuel req = some (r, tr)) :
    r.statusCode = 403 ↔ jsTrim (doc.user_id.getD "") ≠ req.userId.getD "" := by
  by_cases hauth : authorize doc (req.userId.getD "") = true
  · have heq : jsTrim (doc.user_id.getD "") = req.userId.getD "" := by
      simpa [authorize, ownerId] using hauth
    cases hdisc : listAllDependents (env.listPhotos (req.eventId.getD "")) fuel with
    | none =>
      have hnone : deleteEvent env fuel req = none := by
        simp only [deleteEvent, he, hu, hdoc, hauth]
        simp [hdisc]
      rw [hnone] at hrun
      cases hrun
    | some pr =>
      obtain ⟨photos, pages⟩ := pr
      rw [deleteEvent_authorized env fuel req doc photos pages he hu hdoc hauth hdisc]
        at hrun
      simp only [Option.some.injEq, Prod.mk.injEq] at hrun
      obtain ⟨hr, -⟩ := hrun
      constructor
      · intro h403
        rw [← hr] at h403
        by_cases hef : env.deleteEventDocFails (req.eventId.getD "") = true <;>
          simp [hef] at h403
      · intro hne
        exact absurd heq hne
  · have hauth' : authorize doc (req.userId.getD "") = false := by
      simpa using hauth
    have hne : jsTrim (doc.user_id.getD "") ≠ req.userId.getD "" := by
      simpa [authorize, ownerId] using hauth'
    have hres : deleteEvent env fuel req =
        some (⟨403, none⟩, [StoreCall.getEvent (req.eventId.getD "")]) := by
      simp only [deleteEvent, he, hu, hdoc, hauth']
      simp
    rw [hres] at hrun
    simp only [Option.some.injEq, Prod.mk.injEq] at hrun
    obtain ⟨hr, -⟩ := hrun
    rw [← hr]
    simpa using hne

/-- Witness for C3 (amended): parent `"evt1"` owned by `"u1"`, caller
`"u1"`, run to completion (status 200). -/
theorem guard_trims_owner_only_witness :
    ((⟨200, some 0⟩ : Response).statusCode = 403 ↔
      jsTrim ((some "u1" : Option String).getD "") ≠ "u1") :=
  guard_trims_owner_only env3 1 ⟨some "evt1", some "u1"⟩ ⟨some "u1"⟩
    ⟨200, some 0⟩
    [StoreCall.getEvent "evt1", StoreCall.listPhotos pageLimit 0,
     StoreCall.deleteEventDoc "evt1"]
    (by decide) (by decide) (by decide) (by decide)


/-! ## Claim theorems (second group) -/

theorem listAllDependents_fetchPage (db : List Photo) (fuel : Nat)
    (h : db.length / pageLimit < fuel) :
    listAllDependents (fetchPage db) fuel =
      some (db, (List.range (db.length / pageLimit + 1)).map
        (fun k => (pageLimit * k, min pageLimit (db.length - pageLimit * k)))) := by
  have hmain := discoverGo_fetchPage db pageLimit (by decide) fuel 0 [] []
    (by simpa using h)
  simpa using hmain

/-- C5: over a deterministic store holding exactly the list `db`,
discovery fetches pages of the fixed size `pageLimit = 100` at offsets
`0, 100, 200, …` (each next offset advanced by the number of records
the previous page actually returned), performs `db.length / 100 + 1`
fetches — so a page of exactly 100 records always triggers another
fetch, and the first page with fewer than 100 (possibly zero) records
is the last — and returns the concatenation of all pages, which is
exactly `db`: every dependent exactly once, no duplicates, no gaps. -/
theorem discovery_exhaustive (db : List Photo) (fuel : Nat)
    (h : db.length / pageLimit < fuel) :
    listAllDependents (fetchPage db) fuel =
      some (db, (List.range (db.length / pageLimit + 1)).map
        (fun k => (pageLimit * k, min pageLimit (db.length - pageLimit * k)))) := by
  exact listAllDependents_fetchPage db fuel h

/-- Witness for C5: a two-element store, one page. -/
theorem discovery_exhaustive_witness :
    listAllDependents (fetchPage [⟨"a", some "f"⟩, ⟨"b", none⟩]) 1 =
      some ([⟨"a", some "f"⟩, ⟨"b", none⟩],
        (List.range (([⟨"a", some "f"⟩, ⟨"b", none⟩] : List Photo).length / pageLimit + 1)).map
          (fun k => (pageLimit * k,
            min pageLimit (([⟨"a", some "f"⟩, ⟨"b", none⟩] : List Photo).length - pageLimit * k)))) :=
  discovery_exhaustive [⟨"a", some "f"⟩, ⟨"b", none⟩] 1 (by decide)

/-- C6: for every non-empty dependent sequence `l`, the chunking loop
produces exactly `⌈l.length / 20⌉ = (l.length + 19) / 20` groups, and
the group at 0-based index `k` is exactly the sub-sequence of `l` at
positions `[k·20, (k+1)·20)` — contiguous groups in the original order,
within and across groups. -/
theorem batch_grouping (l : List Photo) (hne : l ≠ []) :
    (chunksOf chunkSize l).length = (l.length + chunkSize - 1) / chunkSize ∧
    ∀ k : Nat, k < (chunksOf chunkSize l).length →
      (chunksOf chunkSize l)[k]? = some ((l.drop (k * chunkSize)).take chunkSize) :=
  ⟨chunksOf_length chunkSize (by decide) l.length l le_rfl,
   fun k hk => chunksOf_getElem chunkSize (by decide) l.length l le_rfl k hk⟩

/-- Witness for C6: 25 dependents give 2 groups; group 1 holds
positions 20–24. -/
theorem batch_grouping_witness :
    (chunksOf chunkSize (List.replicate 25 ⟨"p", none⟩)).length =
      ((List.replicate 25 (⟨"p", none⟩ : Photo)).length + chunkSize - 1) / chunkSize ∧
    (chunksOf chunkSize (List.replicate 25 ⟨"p", none⟩))[1]? =
      some (((List.replicate 25 (⟨"p", none⟩ : Photo)).drop (1 * chunkSize)).take chunkSize) :=
  ⟨(batch_grouping (List.replicate 25 ⟨"p", none⟩) (by decide)).1,
   (batch_grouping (List.replicate 25 ⟨"p", none⟩) (by decide)).2 1 (by decide)⟩

/-- C7: full partial-failure tolerance of the dependent-deletion phase.
(1) Whatever the failure pattern carried by `env`, the batch phase
issues exactly the full attempt sequence: for every photo, in order,
the blob delete when `file_id` is present and then the record delete —
so a failing member never suppresses any other member of its own or a
later group.  (2) Per member, the record-deletion sub-step is attempted
whatever the blob sub-step did.  (3) A run that passes authorization
and terminates always reaches the parent-deletion call, whatever the
per-item failures: the last store call of the trace is the parent
record delete. -/
theorem partial_failure_tolerance :
    (∀ (env : Env) (photos : List Photo),
      (batchDelete env photos).2 = photos.flatMap attemptCalls) ∧
    (∀ (env : Env) (p : Photo),
      StoreCall.deletePhotoDoc p.id ∈ (processPhoto env p).2) ∧
    (∀ (env : Env) (fuel : Nat) (req : Request) (doc : EventDoc)
        (r : Response) (tr : List StoreCall),
      jsFalsy req.eventId = false → jsFalsy req.userId = false →
      env.getEvent (req.eventId.getD "") = some doc →
      authorize doc (req.userId.getD "") = true →
      deleteEvent env fuel req = some (r, tr) →
      tr.getLast? = some (StoreCall.deleteEventDoc (req.eventId.getD ""))) := by
  refine ⟨batchDelete_calls, ?_, ?_⟩
  · intro env p
    rw [processPhoto_calls]
    simp [attemptCalls]
  · intro env fuel req doc r tr he hu hdoc hauth hrun
    cases hdisc : listAllDependents (env.listPhotos (req.eventId.getD "")) fuel with
    | none =>
      have hnone : deleteEvent env fuel req = none := by
        simp only [deleteEvent, he, hu, hdoc, hauth]
        simp [hdisc]
      rw [hnone] at hrun
      cases hrun
    | some pr =>
      obtain ⟨photos, pages⟩ := pr
      rw [deleteEvent_authorized env fuel req doc photos pages he hu hdoc hauth hdisc]
        at hrun
      simp only [Option.some.injEq, Prod.mk.injEq] at hrun
      obtain ⟨-, htr⟩ := hrun
      rw [← htr]
      exact getLast_append_singleton _ _


/-- An environment where every photo blob and photo record deletion
fails, with a single dependent that has a blob reference. -/
def envF : Env :=
  mkEnv (fun _ => some ⟨some "u1"⟩) (fun _ => [⟨"a", some "f"⟩])
    (fun _ => true) (fun _ => true) (fun _ => false)

/-- Witness for C7: with every per-item deletion failing, the blob and
record deletes are both still attempted and the run still ends with the
parent-record delete. -/
theorem partial_failure_tolerance_witness :
    (batchDelete envF [⟨"a", some "f"⟩]).2 =
      ([⟨"a", some "f"⟩] : List Photo).flatMap attemptCalls ∧
    StoreCall.deletePhotoDoc "a" ∈ (processPhoto envF ⟨"a", some "f"⟩).2 ∧
    ([StoreCall.getEvent "e", StoreCall.listPhotos pageLimit 0,
      StoreCall.deleteFile "f", StoreCall.deletePhotoDoc "a",
      StoreCall.deleteEventDoc "e"].getLast? =
      some (StoreCall.deleteEventDoc "e")) :=
  ⟨partial_failure_tolerance.1 envF [⟨"a", some "f"⟩],
   partial_failure_tolerance.2.1 envF ⟨"a", some "f"⟩,
   partial_failure_tolerance.2.2 envF 1 ⟨some "e", some "u1"⟩ ⟨some "u1"⟩
     ⟨200, some 1⟩
     [StoreCall.getEvent "e", StoreCall.listPhotos pageLimit 0,
      StoreCall.deleteFile "f", StoreCall.deletePhotoDoc "a",
      StoreCall.deleteEventDoc "e"]
     (by decide) (by decide) (by decide) (by decide) (by decide)⟩

/-- C8: the success count hides per-item failures.  (1) The response is
a function of the stores' contents alone: two runs differing only in
which individual blob or record deletions fail produce identical
responses, so the caller cannot distinguish full from partial dependent
deletion.  (2) On terminal success the `deletedPhotos` count equals the
total number of dependents discovered, whatever the per-item failure
pattern. -/
theorem deleted_count_ignores_failures :
    (∀ (ev : String → Option EventDoc) (ph : String → List Photo)
        (bf df bf' df' ef : String → Bool) (fuel : Nat) (req : Request),
      ((deleteEvent (mkEnv ev ph bf df ef) fuel req).map fun r => r.1) =
        ((deleteEvent (mkEnv ev ph bf' df' ef) fuel req).map fun r => r.1)) ∧
    (∀ (ev : String → Option EventDoc) (ph : String → List Photo)
        (bf df : String → Bool) (fuel : Nat) (req : Request) (doc : EventDoc),
      jsFalsy req.eventId = false → jsFalsy req.userId = false →
      ev (req.eventId.getD "") = some doc →
      authorize doc (req.userId.getD "") = true →
      (ph (req.eventId.getD "")).length / pageLimit < fuel →
      ((deleteEvent (mkEnv ev ph bf df (fun _ => false)) fuel req).map fun r => r.1) =
        some ⟨200, some (ph (req.eventId.getD "")).length⟩) := by
  constructor
  · intro ev ph bf df bf' df' ef fuel req
    by_cases he : jsFalsy req.eventId = true
    · simp [deleteEvent, he]
    · have he' : jsFalsy req.eventId = false := by simpa using he
      by_cases hu : jsFalsy req.userId = true
      · simp [deleteEvent, he', hu]
      · have hu' : jsFalsy req.userId = false := by simpa using hu
        cases hdoc : ev (req.eventId.getD "") with
        | none => simp [deleteEvent, mkEnv, he', hu', hdoc]
        | some doc =>
          by_cases hauth : authorize doc (req.userId.getD "") = true
          · cases hdisc :
              listAllDependents (fetchPage (ph (req.eventId.getD ""))) fuel with
            | none =>
              have h1 : deleteEvent (mkEnv ev ph bf df ef) fuel req = none := by
                simp only [deleteEvent, he', hu', hauth, mkEnv, hdoc]
                simp [hdisc]
              have h2 : deleteEvent (mkEnv ev ph bf' df' ef) fuel req = none := by
                simp only [deleteEvent, he', hu', hauth, mkEnv, hdoc]
                simp [hdisc]
              rw [h1, h2]
            | some pr =>
              obtain ⟨photos, pages⟩ := pr
              rw [deleteEvent_authorized (mkEnv ev ph bf df ef) fuel req doc photos
                  pages he' hu' (by simpa [mkEnv] using hdoc) hauth
                  (by simpa [mkEnv] using hdisc),
                deleteEvent_authorized (mkEnv ev ph bf' df' ef) fuel req doc photos
                  pages he' hu' (by simpa [mkEnv] using hdoc) hauth
                  (by simpa [mkEnv] using hdisc)]
              simp [mkEnv]
          · have hauth' : authorize doc (req.userId.getD "") = false := by
              simpa using hauth
            have h1 : deleteEvent (mkEnv ev ph bf df ef) fuel req =
                some (⟨403, none⟩, [StoreCall.getEvent (req.eventId.getD "")]) := by
              simp only [deleteEvent, he', hu', mkEnv, hdoc, hauth']
              simp
            have h2 : deleteEvent (mkEnv ev ph bf' df' ef) fuel req =
                some (⟨403, none⟩, [StoreCall.getEvent (req.eventId.getD "")]) := by
              simp only [deleteEvent, he', hu', mkEnv, hdoc, hauth']
              simp
            rw [h1, h2]
  · intro ev ph bf df fuel req doc he hu hdoc hauth hfuel
    have hdisc := listAllDependents_fetchPage (ph (req.eventId.getD "")) fuel hfuel
    rw [deleteEvent_authorized (mkEnv ev ph bf df (fun _ => false)) fuel req doc
        (ph (req.eventId.getD ""))
        ((List.range ((ph (req.eventId.getD "")).length / pageLimit + 1)).map
          (fun k => (pageLimit * k,
            min pageLimit ((ph (req.eventId.getD "")).length - pageLimit * k))))
        he hu (by simpa [mkEnv] using hdoc) hauth (by simpa [mkEnv] using hdisc)]
    simp [mkEnv]

/-- Witness for C8: one dependent whose deletions both fail versus both
succeed — same response; and the all-fail run still reports
`deletedPhotos = 1`. -/
theorem deleted_count_ignores_failures_witness :
    ((deleteEvent (mkEnv (fun _ => some ⟨some "u1"⟩) (fun _ => [⟨"a", some "f"⟩])
        (fun _ => true) (fun _ => true) (fun _ => false)) 1
        ⟨some "e", some "u1"⟩).map fun r => r.1) =
      ((deleteEvent (mkEnv (fun _ => some ⟨some "u1"⟩) (fun _ => [⟨"a", some "f"⟩])
        (fun _ => false) (fun _ => false) (fun _ => false)) 1
        ⟨some "e", some "u1"⟩).map fun r => r.1) ∧
    ((deleteEvent (mkEnv (fun _ => some ⟨some "u1"⟩) (fun _ => [⟨"a", some "f"⟩])
        (fun _ => true) (fun _ => true) (fun _ => false)) 1
        ⟨some "e", some "u1"⟩).map fun r => r.1) =
      some ⟨200, some ((fun _ => [(⟨"a", some "f"⟩ : Photo)]) "e").length⟩ :=
  ⟨deleted_count_ignores_failures.1 (fun _ => some ⟨some "u1"⟩)
      (fun _ => [⟨"a", some "f"⟩]) (fun _ => true) (fun _ => true)
      (fun _ => false) (fun _ => false) (fun _ => false) 1 ⟨some "e", some "u1"⟩,
   deleted_count_ignores_failures.2 (fun _ => some ⟨some "u1"⟩)
      (fun _ => [⟨"a", some "f"⟩]) (fun _ => true) (fun _ => true) 1
      ⟨some "e", some "u1"⟩ ⟨some "u1"⟩
      (by decide) (by decide) (by decide) (by decide) (by decide)⟩

/-- C10: an authorized request whose parent has zero dependents (the
first discovery page is empty): the batch deleter gets an empty input —
zero groups, zero dependent delete calls — the parent record is still
deleted, and the response is 200 with `deletedPhotos = 0`.  The full
trace is the parent lookup, one empty page fetch, and the parent
delete. -/
theorem empty_dependents_success (ev : String → Option EventDoc)
    (ph : String → List Photo) (bf df : String → Bool) (fuel : Nat)
    (req : Request) (doc : EventDoc)
    (he : jsFalsy req.eventId = false) (hu : jsFalsy req.userId = false)
    (hdoc : ev (req.eventId.getD "") = some doc)
    (hauth : authorize doc (req.userId.getD "") = true)
    (hempty : ph (req.eventId.getD "") = [])
    (hfuel : 0 < fuel) :
    deleteEvent (mkEnv ev ph bf df (fun _ => false)) fuel req =
      some (⟨200, some 0⟩,
        [StoreCall.getEvent (req.eventId.getD ""),
         StoreCall.listPhotos pageLimit 0,
         StoreCall.deleteEventDoc (req.eventId.getD "")]) ∧
    chunksOf chunkSize (ph (req.eventId.getD "")) = [] ∧
    batchDelete (mkEnv ev ph bf df (fun _ => false)) (ph (req.eventId.getD "")) =
      ([], []) := by
  have hdisc := listAllDependents_fetchPage (ph (req.eventId.getD "")) fuel
    (by rw [hempty]; simpa using hfuel)
  rw [hempty] at hdisc
  simp only [List.length_nil] at hdisc
  refine ⟨?_, ?_, ?_⟩
  · rw [deleteEvent_authorized (mkEnv ev ph bf df (fun _ => false)) fuel req doc
        [] ((List.range (0 / pageLimit + 1)).map
          (fun k => (pageLimit * k, min pageLimit (0 - pageLimit * k))))
        he hu (by simpa [mkEnv] using hdoc) hauth
        (by simp only [mkEnv]; simpa [hempty] using hdisc)]
    simp [mkEnv, batchDelete, chunksOf, chunksGo, pageLimit, List.range_succ]
  · rw [hempty]; rfl
  · rw [hempty]; rfl

/-- Witness for C10: an event with an empty photo list. -/
theorem empty_dependents_success_witness :
    deleteEvent (mkEnv (fun _ => some ⟨some "u1"⟩) (fun _ => []) (fun _ => false)
        (fun _ => false) (fun _ => false)) 1 ⟨some "e", some "u1"⟩ =
      some (⟨200, some 0⟩,
        [StoreCall.getEvent "e", StoreCall.listPhotos pageLimit 0,
         StoreCall.deleteEventDoc "e"]) ∧
    chunksOf chunkSize ((fun _ => ([] : List Photo)) "e") = [] ∧
    batchDelete (mkEnv (fun _ => some ⟨some "u1"⟩) (fun _ => []) (fun _ => false)
        (fun _ => false) (fun _ => false)) ((fun _ => ([] : List Photo)) "e") =
      ([], []) :=
  empty_dependents_success (fun _ => some ⟨some "u1"⟩) (fun _ => []) (fun _ => false)
    (fun _ => false) 1 ⟨some "e", some "u1"⟩ ⟨some "u1"⟩
    (by decide) (by decide) (by decide) (by decide) (by decide) (by decide)


/-! ## Claim theorem: end-to-end scenario -/

set_option maxRecDepth 100000 in
/-- C2: the end-to-end scenario.  For parent `"evt1"` owned by `"u1"`
with 205 dependents and caller `"u1"`: discovery performs exactly 3
page fetches returning 100, 100 and 5 records (offsets 0, 100, 200);
the batch deleter partitions the 205 dependents into exactly 11 groups
— their sizes are ten 20s and one 5 — and the run returns status 200
with `deletedPhotos = 205`, its trace being the parent lookup, the 3
page fetches, the 205 record deletes, and the parent delete. -/
theorem scenario_205_end_to_end :
    listAllDependents (env205.listPhotos "evt1") 206 =
      some (photos205, [(0, 100), (100, 100), (200, 5)]) ∧
    (chunksOf chunkSize photos205).map List.length =
      List.replicate 10 20 ++ [5] ∧
    deleteEvent env205 206 req205 =
      some (⟨200, some 205⟩,
        [StoreCall.getEvent "evt1"]
          ++ [StoreCall.listPhotos pageLimit 0, StoreCall.listPhotos pageLimit 100,
              StoreCall.listPhotos pageLimit 200]
          ++ List.replicate 205 (StoreCall.deletePhotoDoc "p")
          ++ [StoreCall.deleteEventDoc "evt1"]) := by
  refine ⟨?_, ?_, ?_⟩ <;> decide

end DeleteEvent
